import Mathlib

/-!
Verification of the connection adapter in simple-websocket (src/simple_websocket/ws.py).

The embedding models the parts of the code that the claims are about:

* `handleStep` / `handleEvents` embed `Base._handle_events` (ws.py lines 116-142):
  one dispatch pass over a batch of events emitted by the wsproto engine.
  The engine itself is external; its per-event behaviour is supplied as data
  attached to each event (`EngineResult`), so that an arbitrary batch together
  with arbitrary engine replies can be fed to the embedded dispatch loop.
* `receiveRun` embeds `Base.receive` (ws.py lines 70-86): the wait loop is
  driven by a trace of wait outcomes, each wakeup carrying the visible shared
  state (`connected`, `input_buffer`) observed after `event.clear()`.
* `send` embeds `Base.send` (ws.py lines 55-68), with the engine encoding
  abstracted as a function on the frame intent.
* `closeFrame` embeds the close-frame intent built by `Base.close`
  (ws.py lines 96-97).
* `clientHandshake` / `clientConstruct` embed `Client.handshake`
  (ws.py lines 233-243) and the way `Base.__init__` (ws.py line 44) propagates
  a handshake exception before any thread is started.
-/

namespace SimpleWebSocket

/-- Payload of a completed application message, tagged text or binary, as
stored in `self.input_buffer`. -/
inductive Data where
  | text (s : String)
  | binary (b : List Nat)
  deriving DecidableEq, Repr

/-- Outcome of one `self.ws.send(...)` call made by the dispatch loop: either
the encoded reply bytes, or a raised `LocalProtocolError`. -/
inductive EngineResult where
  | ok (bytes : List Nat)
  | err
  deriving DecidableEq, Repr

/-- One event of a batch produced by `self.ws.events()`, together with the
engine reply the dispatch code would obtain for it.  `request` carries the
result of `ws.send(AcceptConnection())`; `closeConn` the result of
`ws.send(event.response())` (consulted only in the server role); `ping` the
result of `ws.send(event.response())`.  `acceptConnection` and
`rejectConnection` match no branch of the dispatch chain. -/
inductive WSEvent where
  | request (accept : EngineResult)
  | closeConn (response : EngineResult)
  | ping (response : EngineResult)
  | textMessage (s : String)
  | bytesMessage (b : List Nat)
  | acceptConnection
  | rejectConnection (status : Nat)
  deriving DecidableEq, Repr

/-- State threaded through one `_handle_events` pass: `buf` is
`self.input_buffer`, `signaled` records whether `self.event.set()` has been
called during this pass, `outData` is the local `out_data` accumulator, and
`keepGoing` is the local `keep_going` flag (returned and assigned to
`self.connected` by `_thread`). -/
structure HEState where
  buf : List Data
  signaled : Bool
  outData : List Nat
  keepGoing : Bool
  deriving DecidableEq, Repr

/-- Body of the `for event in self.ws.events()` loop of `_handle_events`
(ws.py lines 119-139), processing a single event.  The
`except LocalProtocolError` arm (lines 136-139) resets `out_data`, sets the
event and clears `keep_going`. -/
def handleStep (isServer : Bool) (s : HEState) (e : WSEvent) : HEState :=
  match e with
  | WSEvent.request r =>
    match r with
    | EngineResult.ok b => { s with outData := s.outData ++ b }
    | EngineResult.err => { s with outData := [], signaled := true, keepGoing := false }
  | WSEvent.closeConn r =>
    if isServer then
      match r with
      | EngineResult.ok b =>
        { s with outData := s.outData ++ b, signaled := true, keepGoing := false }
      | EngineResult.err =>
        { s with outData := [], signaled := true, keepGoing := false }
    else
      { s with signaled := true, keepGoing := false }
  | WSEvent.ping r =>
    match r with
    | EngineResult.ok b => { s with outData := s.outData ++ b }
    | EngineResult.err => { s with outData := [], signaled := true, keepGoing := false }
  | WSEvent.textMessage str => { s with buf := s.buf ++ [Data.text str], signaled := true }
  | WSEvent.bytesMessage b => { s with buf := s.buf ++ [Data.binary b], signaled := true }
  | WSEvent.acceptConnection => s
  | WSEvent.rejectConnection _ => s

/-- Initial per-pass state of `_handle_events`: `keep_going = True`,
`out_data = b''`, the input buffer as it stands, and no signal sent yet. -/
def initState (buf : List Data) : HEState :=
  { buf := buf, signaled := false, outData := [], keepGoing := true }

/-- One full `_handle_events` pass over a batch of engine events
(ws.py lines 116-142), before the final combined write. -/
def handleEvents (isServer : Bool) (events : List WSEvent) (buf : List Data) : HEState :=
  List.foldl (handleStep isServer) (initState buf) events

/-- Transcript of `self.sock.send` calls made by the tail of `_handle_events`
(ws.py lines 140-141): one combined write when `out_data` is nonempty. -/
def sentOf (s : HEState) : List (List Nat) :=
  if s.outData = [] then [] else [s.outData]

/-- The application payload a single event contributes to `input_buffer`. -/
def msgPayload : WSEvent → Option Data
  | WSEvent.textMessage s => some (Data.text s)
  | WSEvent.bytesMessage b => some (Data.binary b)
  | _ => none

/-- Whether dispatching this event raises `LocalProtocolError`: the engine
calls made are `ws.send(AcceptConnection())` for a request,
`ws.send(event.response())` for a ping, and, in the server role only,
`ws.send(event.response())` for a close event. -/
def raisesError (isServer : Bool) : WSEvent → Bool
  | WSEvent.request EngineResult.err => true
  | WSEvent.closeConn EngineResult.err => isServer
  | WSEvent.ping EngineResult.err => true
  | _ => false

/-- Bytes an event appends to `out_data` when it does not raise. -/
def okBytes (isServer : Bool) : WSEvent → List Nat
  | WSEvent.request (EngineResult.ok b) => b
  | WSEvent.closeConn (EngineResult.ok b) => if isServer then b else []
  | WSEvent.ping (EngineResult.ok b) => b
  | _ => []

/-- Evolution of the `out_data` accumulator alone over a batch: an event that
raises resets it to empty, any other event appends its reply bytes. -/
def outFold (isServer : Bool) : List WSEvent → List Nat → List Nat
  | [], o => o
  | e :: rest, o =>
    outFold isServer rest (if raisesError isServer e then [] else o ++ okBytes isServer e)

/-- Concatenated reply bytes of a batch none of whose events raises. -/
def okConcat (isServer : Bool) : List WSEvent → List Nat
  | [] => []
  | e :: rest => okBytes isServer e ++ okConcat isServer rest

/-- Result of a `receive` call: a popped message, the Python `None` returned
on timeout, or the raised `ConnectionClosed`. -/
inductive ReceiveResult where
  | msg (d : Data)
  | noData
  | closed
  deriving DecidableEq, Repr

/-- Outcome of one `self.event.wait(timeout=timeout)` call inside `receive`:
either the wait timed out (returned `False`), or the flag was observed set and,
after `self.event.clear()`, the shared state visible at the re-check of the
loop condition is `connected = c` and `input_buffer = b`. -/
inductive WaitOutcome where
  | timedOut
  | signaled (connected : Bool) (buffer : List Data)
  deriving DecidableEq, Repr

/-- Embedding of `Base.receive` (ws.py lines 80-86), driven by a trace of wait
outcomes.  Returns the call result paired with the remaining `input_buffer`
(`none` when the trace is exhausted with the call still blocked), together
with the transcript of timeout arguments passed to the successive
`event.wait` calls: the code passes the unchanged `timeout` parameter to
every wait. -/
def receiveRun (timeout : Option Nat) :
    Bool → List Data → List WaitOutcome →
      Option (ReceiveResult × List Data) × List (Option Nat)
  | false, buf, _ => (some (ReceiveResult.closed, buf), [])
  | true, m :: rest, _ => (some (ReceiveResult.msg m, rest), [])
  | true, [], [] => (none, [])
  | true, [], WaitOutcome.timedOut :: _ => (some (ReceiveResult.noData, []), [timeout])
  | true, [], WaitOutcome.signaled c b :: rest =>
    let r := receiveRun timeout c b rest
    (r.1, timeout :: r.2)

/-- `n` successive `receive` calls against an open connection whose buffer is
nonempty long enough: collects the popped messages and the remaining buffer. -/
def receiveMany : Nat → List Data → List Data × List Data
  | 0, buf => ([], buf)
  | Nat.succ n, buf =>
    match (receiveRun none true buf []).1 with
    | some (ReceiveResult.msg m, rest) =>
      let p := receiveMany n rest
      (m :: p.1, p.2)
    | _ => ([], buf)

/-- Outbound message intent handed to the engine by `Base.send`: either
`Message(data=data)` for a bytes payload, or `TextMessage(data=str(data))`. -/
inductive Frame where
  | binaryFrame (b : List Nat)
  | textFrame (s : String)
  deriving DecidableEq, Repr

/-- Argument of `Base.send`: `raw` models a value for which
`isinstance(data, bytes)` holds; `text s` models any other value, with `s`
its textual representation `str(data)`. -/
inductive Payload where
  | raw (b : List Nat)
  | text (s : String)
  deriving DecidableEq, Repr

/-- Error surfaced by `Base.send`. -/
inductive WsError where
  | connectionClosed
  deriving DecidableEq, Repr

/-- Embedding of `Base.send` (ws.py lines 55-68), with the engine encoding
abstracted as `enc`.  The success value is the transcript of `sock.send`
calls made. -/
def send (enc : Frame → List Nat) (connected : Bool) (data : Payload) :
    Except WsError (List (List Nat)) :=
  if connected = false then Except.error WsError.connectionClosed
  else
    match data with
    | Payload.raw b => Except.ok [enc (Frame.binaryFrame b)]
    | Payload.text s => Except.ok [enc (Frame.textFrame s)]

/-- `CloseReason.NORMAL_CLOSURE` from wsproto. -/
def normalClosure : Nat := 1000

/-- The `(reason, message)` pair of the `CloseConnection` intent built by
`Base.close` (ws.py lines 96-97): `reason or CloseReason.NORMAL_CLOSURE`,
where the falsy reasons are the default `None` and the integer `0`. -/
def closeFrame (reason : Option Nat) (message : Option String) : Nat × Option String :=
  (match reason with
   | none => normalClosure
   | some r => if r = 0 then normalClosure else r,
   message)

/-- One event observed by the synchronous read-and-process cycle of
`Client.handshake` (ws.py lines 239-243); `other` is any event matching
neither branch of the chain. -/
inductive HandshakeEvent where
  | acceptConnection
  | rejectConnection (status : Nat)
  | other
  deriving DecidableEq, Repr

/-- Embedding of the event loop of `Client.handshake` (ws.py lines 239-243):
break on acceptance, raise `ConnectionError(event.status_code)` on
rejection, skip anything else. -/
def clientHandshake : List HandshakeEvent → Except Nat Unit
  | [] => Except.ok ()
  | HandshakeEvent.acceptConnection :: _ => Except.ok ()
  | HandshakeEvent.rejectConnection s :: _ => Except.error s
  | HandshakeEvent.other :: rest => clientHandshake rest

/-- Client construction: `Base.__init__` (ws.py lines 34-49) calls
`self.handshake()` before starting the background thread, so a handshake
exception propagates out of the constructor carrying the peer status code and
no object is produced; otherwise the first dispatch pass runs and its
`keep_going` result becomes `self.connected`. -/
def clientConstruct (hsEvents : List HandshakeEvent) (firstBatch : List WSEvent) :
    Except Nat (Bool × List Data) :=
  match clientHandshake hsEvents with
  | Except.error s => Except.error s
  | Except.ok _ =>
    let st := handleEvents false firstBatch []
    Except.ok (st.keepGoing, st.buf)

/-- A single dispatch step changes `input_buffer` exactly by appending the
application payload of the event, if any. -/
lemma handleStep_buf (is : Bool) (s : HEState) (e : WSEvent) :
    (handleStep is s e).buf = s.buf ++ Option.toList (msgPayload e) := by
  cases e with
  | request r => cases r <;> simp [handleStep, msgPayload]
  | closeConn r => cases is <;> cases r <;> simp [handleStep, msgPayload]
  | ping r => cases r <;> simp [handleStep, msgPayload]
  | textMessage str => simp [handleStep, msgPayload]
  | bytesMessage b => simp [handleStep, msgPayload]
  | acceptConnection => simp [handleStep, msgPayload]
  | rejectConnection st => simp [handleStep, msgPayload]

/-- No dispatch step ever resets `keep_going` to true. -/
lemma handleStep_keepGoing_false (is : Bool) (s : HEState) (e : WSEvent)
    (h : s.keepGoing = false) : (handleStep is s e).keepGoing = false := by
  cases e with
  | request r => cases r <;> simp [handleStep, h]
  | closeConn r => cases is <;> cases r <;> simp [handleStep]
  | ping r => cases r <;> simp [handleStep, h]
  | textMessage str => simp [handleStep, h]
  | bytesMessage b => simp [handleStep, h]
  | acceptConnection => simpa [handleStep] using h
  | rejectConnection st => simpa [handleStep] using h

/-- No dispatch step ever clears the record of a sent signal. -/
lemma handleStep_signaled_true (is : Bool) (s : HEState) (e : WSEvent)
    (h : s.signaled = true) : (handleStep is s e).signaled = true := by
  cases e with
  | request r => cases r <;> simp [handleStep, h]
  | closeConn r => cases is <;> cases r <;> simp [handleStep]
  | ping r => cases r <;> simp [handleStep, h]
  | textMessage str => simp [handleStep]
  | bytesMessage b => simp [handleStep]
  | acceptConnection => simpa [handleStep] using h
  | rejectConnection st => simpa [handleStep] using h

/-- A single dispatch step updates `out_data` by the reset-or-append rule. -/
lemma handleStep_outData (is : Bool) (s : HEState) (e : WSEvent) :
    (handleStep is s e).outData =
      if raisesError is e then [] else s.outData ++ okBytes is e := by
  cases e with
  | request r => cases r <;> simp [handleStep, raisesError, okBytes]
  | closeConn r => cases is <;> cases r <;> simp [handleStep, raisesError, okBytes]
  | ping r => cases r <;> simp [handleStep, raisesError, okBytes]
  | textMessage str => simp [handleStep, raisesError, okBytes]
  | bytesMessage b => simp [handleStep, raisesError, okBytes]
  | acceptConnection => simp [handleStep, raisesError, okBytes]
  | rejectConnection st => simp [handleStep, raisesError, okBytes]

/-- A dispatch step on an event whose engine call raises acts exactly as the
`except LocalProtocolError` arm: `out_data` cleared, signal sent,
`keep_going` cleared, buffer untouched. -/
lemma handleStep_error (is : Bool) (s : HEState) (e : WSEvent)
    (h : raisesError is e = true) :
    handleStep is s e = { s with outData := [], signaled := true, keepGoing := false } := by
  cases e with
  | request r =>
    cases r with
    | ok b => simp [raisesError] at h
    | err => simp [handleStep]
  | closeConn r =>
    cases r with
    | ok b => simp [raisesError] at h
    | err =>
      have his : is = true := by simpa [raisesError] using h
      subst his
      simp [handleStep]
  | ping r =>
    cases r with
    | ok b => simp [raisesError] at h
    | err => simp [handleStep]
  | textMessage str => simp [raisesError] at h
  | bytesMessage b => simp [raisesError] at h
  | acceptConnection => simp [raisesError] at h
  | rejectConnection st => simp [raisesError] at h

/-- A close event always sends the signal and clears `keep_going`. -/
lemma handleStep_close_keepGoing (is : Bool) (s : HEState) (r : EngineResult) :
    (handleStep is s (WSEvent.closeConn r)).keepGoing = false := by
  cases is <;> cases r <;> simp [handleStep]

/-- A close event always calls `self.event.set()`. -/
lemma handleStep_close_signaled (is : Bool) (s : HEState) (r : EngineResult) :
    (handleStep is s (WSEvent.closeConn r)).signaled = true := by
  cases is <;> cases r <;> simp [handleStep]

/-- Over a whole batch, `input_buffer` grows exactly by the message payloads
of the batch, in emission order. -/
lemma foldl_buf (is : Bool) : ∀ (evts : List WSEvent) (s : HEState),
    (List.foldl (handleStep is) s evts).buf = s.buf ++ evts.filterMap msgPayload := by
  intro evts
  induction evts with
  | nil => intro s; simp
  | cons e rest ih =>
    intro s
    rw [List.foldl_cons, ih, handleStep_buf]
    cases h : msgPayload e <;> simp [List.filterMap_cons, h]

/-- Once `keep_going` is false it stays false for the rest of the batch. -/
lemma foldl_keepGoing_false (is : Bool) : ∀ (evts : List WSEvent) (s : HEState),
    s.keepGoing = false → (List.foldl (handleStep is) s evts).keepGoing = false := by
  intro evts
  induction evts with
  | nil => intro s h; simpa using h
  | cons e rest ih =>
    intro s h
    rw [List.foldl_cons]
    exact ih _ (handleStep_keepGoing_false is s e h)

/-- Once the signal has been sent it stays recorded for the rest of the
batch. -/
lemma foldl_signaled_true (is : Bool) : ∀ (evts : List WSEvent) (s : HEState),
    s.signaled = true → (List.foldl (handleStep is) s evts).signaled = true := by
  intro evts
  induction evts with
  | nil => intro s h; simpa using h
  | cons e rest ih =>
    intro s h
    rw [List.foldl_cons]
    exact ih _ (handleStep_signaled_true is s e h)

/-- The `out_data` component of the fold depends only on the events and the
incoming `out_data` value. -/
lemma foldl_outData (is : Bool) : ∀ (evts : List WSEvent) (s : HEState),
    (List.foldl (handleStep is) s evts).outData = outFold is evts s.outData := by
  intro evts
  induction evts with
  | nil => intro s; simp [outFold]
  | cons e rest ih =>
    intro s
    rw [List.foldl_cons, ih, outFold, handleStep_outData]

/-- When no event of the batch raises, `out_data` just accumulates all the
reply bytes. -/
lemma outFold_noErr (is : Bool) : ∀ (evts : List WSEvent) (o : List Nat),
    (∀ e ∈ evts, raisesError is e = false) →
      outFold is evts o = o ++ okConcat is evts := by
  intro evts
  induction evts with
  | nil => intro o _; simp [outFold, okConcat]
  | cons e rest ih =>
    intro o h
    have he : raisesError is e = false := h e (List.mem_cons_self e rest)
    have hr : ∀ x ∈ rest, raisesError is x = false :=
      fun x hx => h x (List.mem_cons_of_mem e hx)
    rw [outFold, he]
    simp only [Bool.false_eq_true, if_false]
    rw [ih (o ++ okBytes is e) hr, okConcat, List.append_assoc]

/-- Splitting a batch at a distinguished event. -/
lemma handleEvents_split (is : Bool) (pre post2 : List WSEvent) (e : WSEvent)
    (buf : List Data) :
    handleEvents is (pre ++ e :: post2) buf =
      List.foldl (handleStep is)
        (handleStep is (List.foldl (handleStep is) (initState buf) pre) e) post2 := by
  simp [handleEvents, List.foldl_append]

/-- Each `receive` call that finds the connection open and the buffer
nonempty pops and returns the head of the buffer, so `n` successive calls
return the first `n` buffered messages in order. -/
lemma receiveMany_take_drop : ∀ (n : Nat) (buf : List Data),
    receiveMany n buf = (buf.take n, buf.drop n) := by
  intro n
  induction n with
  | zero => intro buf; simp [receiveMany]
  | succ n ih =>
    intro buf
    cases buf with
    | nil => simp [receiveMany, receiveRun]
    | cons m rest => simp [receiveMany, receiveRun, ih rest]

/-- An open, empty-buffer `receive` that is woken `n` times into a still-open,
still-empty state and then times out: it returns the no-data result and each
of the `n + 1` waits was issued with the full original timeout. -/
lemma receiveRun_empty_wakeups (t : Option Nat) : ∀ (n : Nat),
    receiveRun t true []
        (List.replicate n (WaitOutcome.signaled true []) ++ [WaitOutcome.timedOut]) =
      (some (ReceiveResult.noData, ([] : List Data)), List.replicate (n + 1) t) := by
  intro n
  induction n with
  | zero => simp [receiveRun]
  | succ n ih =>
    rw [List.replicate_succ, List.cons_append]
    simp [receiveRun, ih, List.replicate_succ]

/-- Claim C1, counterexample: with `connected` already false and one message
still buffered, `receive` raises `ConnectionClosed` instead of returning the
buffered message, because the check `if not self.connected` at ws.py line 84
runs before the buffer is popped. -/
theorem receive_closed_with_buffered_cex :
    (receiveRun none false [Data.binary [1]] []).1 =
        some (ReceiveResult.closed, [Data.binary [1]]) ∧
    (receiveRun none false [Data.binary [1]] []).1 ≠
        some (ReceiveResult.msg (Data.binary [1]), []) := by
  constructor
  · rfl
  · decide

/-- Claim C1, amended: once `connected` is false, every `receive` call raises
`ConnectionClosed` immediately, for every buffer content and every wait
trace; messages still buffered are not retrievable. -/
theorem receive_closed_discards_buffer (t : Option Nat) (buf : List Data)
    (trace : List WaitOutcome) :
    receiveRun t false buf trace = (some (ReceiveResult.closed, buf), []) := by
  simp [receiveRun]

/-- Claim C2, counterexample: the dispatch loop of `_handle_events` has no
break, so a message event arriving after a Close event in the same batch is
still appended to `input_buffer`, even though the pass returns
not-connected. -/
theorem close_event_later_message_appended_cex :
    (handleEvents false
        [WSEvent.closeConn (EngineResult.ok []), WSEvent.bytesMessage [1]] []).buf =
      [Data.binary [1]] ∧
    (handleEvents false
        [WSEvent.closeConn (EngineResult.ok []), WSEvent.bytesMessage [1]] []).keepGoing =
      false := by
  constructor <;> rfl

/-- Claim C2, amended: a Close event sends the signal and clears
`keep_going`, so the pass returns false and `_thread` marks the connection
not-connected and stops after this batch; in the server role, when the
engine reply for the close succeeds and no later event of the batch raises,
the mirrored close response bytes occur in the batch output.  However the
for-loop does not break: the remaining events of the batch are still
dispatched, and every message event of the batch, before or after the Close,
is appended to `input_buffer`. -/
theorem close_event_dispatch (is : Bool) (r : EngineResult) (b : List Nat)
    (pre post2 : List WSEvent) (buf : List Data) :
    (handleEvents is (pre ++ WSEvent.closeConn r :: post2) buf).keepGoing = false ∧
    (handleEvents is (pre ++ WSEvent.closeConn r :: post2) buf).signaled = true ∧
    (handleEvents is (pre ++ WSEvent.closeConn r :: post2) buf).buf =
      buf ++ (pre ++ WSEvent.closeConn r :: post2).filterMap msgPayload ∧
    (is = true → r = EngineResult.ok b →
      (∀ e ∈ post2, raisesError is e = false) →
      ∃ x y, (handleEvents is (pre ++ WSEvent.closeConn r :: post2) buf).outData =
        x ++ b ++ y) := by
  have hsplit := handleEvents_split is pre post2 (WSEvent.closeConn r) buf
  refine ⟨?_, ?_, ?_, ?_⟩
  · rw [hsplit]
    exact foldl_keepGoing_false is post2 _ (handleStep_close_keepGoing is _ r)
  · rw [hsplit]
    exact foldl_signaled_true is post2 _ (handleStep_close_signaled is _ r)
  · exact foldl_buf is _ (initState buf)
  · intro his hr hpost
    subst his
    subst hr
    refine ⟨(List.foldl (handleStep true) (initState buf) pre).outData,
      okConcat true post2, ?_⟩
    rw [hsplit, foldl_outData, handleStep_outData]
    have hraise : raisesError true (WSEvent.closeConn (EngineResult.ok b)) = false := rfl
    rw [hraise]
    simp only [Bool.false_eq_true, if_false]
    rw [outFold_noErr true post2 _ hpost]
    simp [okBytes, List.append_assoc]

/-- Claim C2, witness of the amended theorem at a concrete batch. -/
theorem close_event_dispatch_witness :
    (handleEvents true [WSEvent.closeConn (EngineResult.ok [9])] []).keepGoing = false ∧
    (∃ x y, (handleEvents true [WSEvent.closeConn (EngineResult.ok [9])] []).outData =
      x ++ [9] ++ y) :=
  ⟨(close_event_dispatch true (EngineResult.ok [9]) [9] [] [] []).1,
   (close_event_dispatch true (EngineResult.ok [9]) [9] [] [] []).2.2.2 rfl rfl
     (by simp)⟩

/-- Claim C3: message delivery is FIFO in engine emission order.  A dispatch
pass appends exactly the message payloads of the batch, in order, to
`input_buffer`, and `n` successive `receive` calls on an open connection pop
and return the first `n` buffered entries, oldest first. -/
theorem fifo_order (is : Bool) (evts : List WSEvent) (buf0 : List Data) (n : Nat) :
    (handleEvents is evts buf0).buf = buf0 ++ evts.filterMap msgPayload ∧
    receiveMany n (evts.filterMap msgPayload) =
      ((evts.filterMap msgPayload).take n, (evts.filterMap msgPayload).drop n) :=
  ⟨foldl_buf is evts (initState buf0), receiveMany_take_drop n _⟩

/-- Claim C4, counterexample: after a `LocalProtocolError` inside the batch,
later events are still dispatched and the bytes they produce are written at
the end of the batch, so a reply is sent for a batch in which a protocol
error occurred. -/
theorem protocol_error_bytes_sent_cex :
    raisesError false (WSEvent.ping EngineResult.err) = true ∧
    sentOf (handleEvents false
        [WSEvent.ping EngineResult.err, WSEvent.ping (EngineResult.ok [7])] []) =
      [[7]] := by
  constructor <;> rfl

/-- Claim C4, amended: when an event of the batch raises a protocol error,
the `out_data` accumulated up to that point is discarded at once, the signal
is sent, and the pass returns false, so `_thread` marks the connection
not-connected and the background loop terminates after this batch.  The loop
does not break, though: the final batch output is exactly what the events
after the error produce starting from an empty accumulator, and it is still
written when nonempty. -/
theorem protocol_error_dispatch (is : Bool) (e : WSEvent) (pre post2 : List WSEvent)
    (buf : List Data) (h : raisesError is e = true) :
    (handleEvents is (pre ++ e :: post2) buf).signaled = true ∧
    (handleEvents is (pre ++ e :: post2) buf).keepGoing = false ∧
    (handleEvents is (pre ++ e :: post2) buf).outData = outFold is post2 [] := by
  have hsplit := handleEvents_split is pre post2 e buf
  have hstep := handleStep_error is (List.foldl (handleStep is) (initState buf) pre) e h
  refine ⟨?_, ?_, ?_⟩
  · rw [hsplit, hstep]
    exact foldl_signaled_true is post2 _ rfl
  · rw [hsplit, hstep]
    exact foldl_keepGoing_false is post2 _ rfl
  · rw [hsplit, hstep, foldl_outData]

/-- Claim C4, witness of the amended theorem at a concrete batch. -/
theorem protocol_error_dispatch_witness :
    (handleEvents false
        [WSEvent.ping (EngineResult.ok [1]), WSEvent.ping EngineResult.err] []).keepGoing =
      false ∧
    (handleEvents false
        [WSEvent.ping (EngineResult.ok [1]), WSEvent.ping EngineResult.err] []).outData =
      outFold false [] [] :=
  ⟨(protocol_error_dispatch false (WSEvent.ping EngineResult.err)
      [WSEvent.ping (EngineResult.ok [1])] [] [] rfl).2.1,
   (protocol_error_dispatch false (WSEvent.ping EngineResult.err)
      [WSEvent.ping (EngineResult.ok [1])] [] [] rfl).2.2⟩

/-- Claim C5: with the connection open and the buffer empty, a `receive`
whose waits keep finding the state open and empty returns the distinguished
no-data result `None` as soon as a wait times out, for every timeout value
(including zero, where the single wait is a non-blocking check) and every
number of intervening wakeups; no error is raised. -/
theorem receive_timeout_no_data (t : Option Nat) (n : Nat) :
    (receiveRun t true []
        (List.replicate n (WaitOutcome.signaled true []) ++ [WaitOutcome.timedOut])).1 =
      some (ReceiveResult.noData, ([] : List Data)) := by
  rw [receiveRun_empty_wakeups]

/-- Claim C6: `send` fails with `ConnectionClosed` exactly when `connected`
is false; on an open connection a bytes payload is encoded as a binary
message, any other payload as a text message of its textual representation,
and the encoded bytes are written to the transport in a single call. -/
theorem send_spec (enc : Frame → List Nat) (c : Bool) (p : Payload)
    (b : List Nat) (s : String) :
    (send enc c p = Except.error WsError.connectionClosed ↔ c = false) ∧
    send enc true (Payload.raw b) = Except.ok [enc (Frame.binaryFrame b)] ∧
    send enc true (Payload.text s) = Except.ok [enc (Frame.textFrame s)] := by
  refine ⟨?_, by simp [send], by simp [send]⟩
  cases c <;> cases p <;> simp [send]

/-- Claim C7: when the first acceptance-or-rejection event the client
handshake observes is a rejection with status `S`, construction fails
synchronously with a connection error carrying exactly `S`, and no connection
value is produced. -/
theorem client_reject_construct (pre post2 : List HandshakeEvent) (S : Nat)
    (firstBatch : List WSEvent)
    (h : ∀ e ∈ pre, e = HandshakeEvent.other) :
    clientConstruct (pre ++ HandshakeEvent.rejectConnection S :: post2) firstBatch =
      Except.error S := by
  have hhs : ∀ (l : List HandshakeEvent), (∀ e ∈ l, e = HandshakeEvent.other) →
      clientHandshake (l ++ HandshakeEvent.rejectConnection S :: post2) =
        Except.error S := by
    intro l
    induction l with
    | nil => intro _; rfl
    | cons e rest ih =>
      intro hl
      have he : e = HandshakeEvent.other := hl e (List.mem_cons_self e rest)
      have hr : ∀ x ∈ rest, x = HandshakeEvent.other :=
        fun x hx => hl x (List.mem_cons_of_mem e hx)
      subst he
      simpa [clientHandshake] using ih hr
  simp [clientConstruct, hhs pre h]

/-- Claim C7, witness at a concrete rejected handshake. -/
theorem client_reject_construct_witness :
    clientConstruct [HandshakeEvent.other, HandshakeEvent.rejectConnection 403] [] =
      Except.error 403 :=
  client_reject_construct [HandshakeEvent.other] [] 403 [] (by simp)

/-- Claim C8: an inbound Ping whose engine reply succeeds leaves
`input_buffer` untouched, sends no signal, keeps `keep_going` true (so the
connection stays connected and the loop keeps going), accumulates exactly the
pong reply bytes, and the batch write sends them when they are nonempty;
moreover a ping step inside any batch never changes the buffer or the
`keep_going` flag. -/
theorem ping_transparency (is : Bool) (p : List Nat) (buf : List Data) (s : HEState) :
    handleEvents is [WSEvent.ping (EngineResult.ok p)] buf =
      { buf := buf, signaled := false, outData := p, keepGoing := true } ∧
    sentOf (handleEvents is [WSEvent.ping (EngineResult.ok p)] buf) =
      (if p = [] then [] else [p]) ∧
    (handleStep is s (WSEvent.ping (EngineResult.ok p))).buf = s.buf ∧
    (handleStep is s (WSEvent.ping (EngineResult.ok p))).keepGoing = s.keepGoing := by
  refine ⟨?_, ?_, rfl, rfl⟩ <;>
    simp [handleEvents, handleStep, initState, sentOf]

/-- Claim C9: `receive` re-arms its wait on every wakeup: across `n` wakeups
that find the connection still open and the buffer still empty, followed by a
timeout, the call performs `n + 1` waits, every one issued with the full
original timeout value, before returning the no-data result — so the total
blocked time of one call can exceed the given timeout. -/
theorem receive_timeout_rearm (t : Nat) (n : Nat) :
    receiveRun (some t) true []
        (List.replicate n (WaitOutcome.signaled true []) ++ [WaitOutcome.timedOut]) =
      (some (ReceiveResult.noData, ([] : List Data)),
        List.replicate (n + 1) (some t)) :=
  receiveRun_empty_wakeups (some t) n

/-- Claim C10: the close frame built by `close` carries status 1000 for the
default `None` reason and for the falsy reason 0, and no reason argument can
make the sent status code 0. -/
theorem close_falsy_reason (reason : Option Nat) (message : Option String) :
    (closeFrame none message).1 = 1000 ∧
    (closeFrame (some 0) message).1 = 1000 ∧
    (closeFrame reason message).1 ≠ 0 := by
  refine ⟨rfl, rfl, ?_⟩
  cases reason with
  | none => simp [closeFrame, normalClosure]
  | some r =>
    by_cases hr : r = 0
    · subst hr
      simp [closeFrame, normalClosure]
    · simp [closeFrame, normalClosure, hr]

end SimpleWebSocket
